import Mathlib

/-!
Verification development for the `create-gfm-fixtures` generator
(`src/lib/index.js`, with one historical variant in `src/unnamed/part_002`).

The hast tree is embedded shallowly: `Node` mirrors hast nodes (elements,
texts, comments), and `Properties` is a typed projection of the property
names the cleaning transforms read or write; any further properties are
kept in `other`.  Each cleaning transform of the source is translated to a
function `Root → Root`; `visit`-based transforms that only rewrite
properties become a structural element-wise map, while transforms that
splice children into the parent are translated as top-down list rewrites
(the functional reading of `unist-util-visit` plus in-place splicing).

The orchestration of `createGfmFixtures` (source discovery decisions, the
gist submission, its response validation, comment posting, extraction and
the final writes) is embedded as a pure function from the inputs (sources,
environment, remote responses) to the ordered trace of externally visible
events, so that ordering claims (no write before a failed assertion, no
remote call without a credential) are provable trace properties.
-/

/-- Typed projection of the hast `properties` record: exactly the fields the
cleaning transforms of the source touch, plus `other` for any remaining
properties.  `none` models an absent (or deleted) property. -/
structure Properties where
  className : Option (List String) := none
  dir : Option String := none
  href : Option String := none
  id : Option String := none
  rel : Option (List String) := none
  src : Option String := none
  style : Option String := none
  target : Option String := none
  dataCanonicalSrc : Option String := none
  dataFootnoteRef : Option String := none
  dataHovercardType : Option String := none
  dataHovercardUrl : Option String := none
  dataSourcepos : Option String := none
  other : List (String × String) := []
  deriving DecidableEq, Repr

/-- A hast node: element, text or comment. -/
inductive Node where
  | element (tagName : String) (properties : Properties) (children : List Node)
  | text (value : String)
  | comment (value : String)
  deriving Repr

/-- A hast root: the fragment container whose `children` the transforms
rewrite. -/
structure Root where
  children : List Node
  deriving Repr

/-- Truthiness of an optional string property or environment variable in
JavaScript: absent and the empty string are falsy. -/
def jsTruthy : Option String → Bool
  | some s => !(s == "")
  | none => false

/-- Class-list membership test, modelling
`Array.isArray(p.className) && p.className.includes(s)`. -/
def clsHas (p : Properties) (s : String) : Bool :=
  match p.className with
  | some l => l.contains s
  | none => false

/-- Character class of the regular expression `[\da-f]`: a decimal digit or
a lowercase hex letter. -/
def isHexLower (c : Char) : Bool :=
  c.isDigit || ('a' ≤ c && c ≤ 'f')

/-- Whether a string ends in `-` followed by 32 lowercase hex digits, the
match condition of the footnote-hash regular expression (dash + 32 hex digits, anchored at the end) used by
`cleanMarkupFootnoteIdHash`. -/
def hasFootnoteHashSuffix (s : String) : Bool :=
  let cs := s.data
  decide (33 ≤ cs.length) &&
    (match cs.drop (cs.length - 33) with
     | '-' :: hex => hex.all isHexLower
     | _ => false)

/-- The effect of the `value.replace` call in `cleanMarkupFootnoteIdHash`: strip one trailing
`-` plus 32 lowercase hex digits when present, otherwise return the string
unchanged. -/
def stripFootnoteHash (s : String) : String :=
  if hasFootnoteHashSuffix s then String.mk (s.data.take (s.data.length - 33)) else s

mutual

/-- Element-wise property rewrite over a node, the functional reading of
`visit(tree, 'element', ...)` for visitors that only change the properties
of the visited element. -/
def mapElem (f : String → Properties → Properties) : Node → Node
  | .element t p c => .element t (f t p) (mapElemList f c)
  | n => n

/-- List version of `mapElem`. -/
def mapElemList (f : String → Properties → Properties) : List Node → List Node
  | [] => []
  | x :: xs => mapElem f x :: mapElemList f xs

end

/-- Visitor body of `cleanMarkupDir` in `src/lib/index.js`: delete
`dir="auto"`. -/
def dirFix (_t : String) (p : Properties) : Properties :=
  if p.dir = some "auto" then { p with dir := none } else p

/-- The transform `cleanMarkupDir`. -/
def cleanMarkupDir (r : Root) : Root :=
  ⟨mapElemList dirFix r.children⟩

/-- Match of the regular expression `/^\s*max-width:\s*100%;?\s*$/` used by
`cleanMarkupImageStyle` (whitespace is modelled as the ASCII part of the
JavaScript `\s` class). -/
def isJsSpace (c : Char) : Bool :=
  c == ' ' || c == '\t' || c == '\n' || c == '\r' || c == '\x0b' || c == '\x0c'

/-- Helper for `maxWidthStyleMatch`: consume a literal character sequence. -/
def dropLit : List Char → List Char → Option (List Char)
  | [], cs => some cs
  | l :: ls, c :: cs => if c = l then dropLit ls cs else none
  | _ :: _, [] => none

/-- Decide `/^\s*max-width:\s*100%;?\s*$/` on a style string. -/
def maxWidthStyleMatch (s : String) : Bool :=
  match dropLit "max-width:".data (s.data.dropWhile isJsSpace) with
  | none => false
  | some cs =>
    match dropLit "100%".data (cs.dropWhile isJsSpace) with
    | none => false
    | some cs2 =>
      let cs3 := match cs2 with
        | ';' :: cs3 => cs3
        | cs3 => cs3
      cs3.all isJsSpace

/-- Visitor body of `cleanMarkupImageStyle`: delete the `style` attribute of
an `img` whose inline style is exactly `max-width: 100%`. -/
def imageStyleFix (t : String) (p : Properties) : Properties :=
  if t = "img" then
    match p.style with
    | some v => if maxWidthStyleMatch v then { p with style := none } else p
    | none => p
  else p

/-- The transform `cleanMarkupImageStyle`. -/
def cleanMarkupImageStyle (r : Root) : Root :=
  ⟨mapElemList imageStyleFix r.children⟩

/-- Visitor body of `cleanMarkupLinkRel`: remove the `rel` attribute of an
`a` whose `rel` list contains `nofollow`. -/
def linkRelFix (t : String) (p : Properties) : Properties :=
  if t = "a" then
    match p.rel with
    | some l => if l.contains "nofollow" then { p with rel := none } else p
    | none => p
  else p

/-- The transform `cleanMarkupLinkRel`. -/
def cleanMarkupLinkRel (r : Root) : Root :=
  ⟨mapElemList linkRelFix r.children⟩

/-- Visitor body of `cleanMarkupUserMention`: on `a.user-mention`, replace
the whole property set with only `href`. -/
def userMentionFix (t : String) (p : Properties) : Properties :=
  if t = "a" && clsHas p "user-mention" then { href := p.href } else p

/-- The transform `cleanMarkupUserMention`. -/
def cleanMarkupUserMention (r : Root) : Root :=
  ⟨mapElemList userMentionFix r.children⟩

/-- Visitor body of `cleanMarkupTasklist`: on
`ul.contains-task-list, li.task-list-item, input.task-list-item-checkbox`,
delete `className`, and additionally `id` on `input`. -/
def tasklistFix (t : String) (p : Properties) : Properties :=
  if (t = "ul" && clsHas p "contains-task-list")
      || (t = "li" && clsHas p "task-list-item")
      || (t = "input" && clsHas p "task-list-item-checkbox") then
    let p1 : Properties := { p with className := none }
    if t = "input" then { p1 with id := none } else p1
  else p

/-- The transform `cleanMarkupTasklist`. -/
def cleanMarkupTasklist (r : Root) : Root :=
  ⟨mapElemList tasklistFix r.children⟩

/-- Visitor body of `cleanMarkupSourcepos` from `src/unnamed/part_002`:
delete a string-valued `data-sourcepos` property. -/
def sourceposFix (_t : String) (p : Properties) : Properties :=
  match p.dataSourcepos with
  | some _ => { p with dataSourcepos := none }
  | none => p

/-- The transform `cleanMarkupSourcepos` (historical variant,
`src/unnamed/part_002`). -/
def cleanMarkupSourcepos (r : Root) : Root :=
  ⟨mapElemList sourceposFix r.children⟩

/-- Selector of `cleanMarkupFootnoteIdHash`:
`a[data-footnote-ref], a.data-footnote-backref, li[id^=user-content-fn]`. -/
def matchesFootnoteSel (t : String) (p : Properties) : Bool :=
  (t = "a" && p.dataFootnoteRef.isSome)
    || (t = "a" && clsHas p "data-footnote-backref")
    || (t = "li" && (match p.id with
        | some v => v.startsWith "user-content-fn"
        | none => false))

/-- The field loop of `cleanMarkupFootnoteIdHash` over `['href', 'id']`:
strip a trailing `-` + 32-hex-digit suffix from each of the two fields
that is present. -/
def footnoteStrip (p : Properties) : Properties :=
  let p1 := match p.href with
    | some v => { p with href := some (stripFootnoteHash v) }
    | none => p
  match p1.id with
  | some v => { p1 with id := some (stripFootnoteHash v) }
  | none => p1

/-- Visitor body of `cleanMarkupFootnoteIdHash`: strip the suffix on
matched elements. -/
def footnoteFix (t : String) (p : Properties) : Properties :=
  if matchesFootnoteSel t p then footnoteStrip p else p

/-- The transform `cleanMarkupFootnoteIdHash` (always registered, cannot be
disabled by any `keep` toggle). -/
def cleanMarkupFootnoteIdHash (r : Root) : Root :=
  ⟨mapElemList footnoteFix r.children⟩

/-- The camo rewrite of `cleanMarkupCamoImage` applied while traversing the
children of the element with tag `t` and properties `p` (the visitor runs
on each `img` child carrying a truthy `data-canonical-src`, replaces its
`src` with the canonical value, deletes that attribute, and rewrites the
`href` of an `a` parent when it equals the original camo `src`).  The
parent properties are threaded through the fold because an earlier `img`
child can change the `href` compared against by a later one. -/
def camoL (t : String) (p : Properties) : List Node → Properties × List Node
  | [] => (p, [])
  | .element ct cp cc :: rest =>
      if ct = "img" && jsTruthy cp.dataCanonicalSrc then
        let camo := cp.src
        let original := cp.dataCanonicalSrc
        let cp1 : Properties := { cp with src := original, dataCanonicalSrc := none }
        let p1 : Properties :=
          if t = "a" ∧ p.href = camo then { p with href := original } else p
        let sub := camoL ct cp1 cc
        let tail := camoL t p1 rest
        (tail.1, .element ct sub.1 sub.2 :: tail.2)
      else
        let sub := camoL ct cp cc
        let tail := camoL t p rest
        (tail.1, .element ct sub.1 sub.2 :: tail.2)
  | n :: rest =>
      let tail := camoL t p rest
      (tail.1, n :: tail.2)

/-- The transform `cleanMarkupCamoImage`.  The children of the root are
traversed with a non-element parent (the root), so no parent `href` is
rewritten at the top level; the sentinel tag `""` never equals `"a"`. -/
def cleanMarkupCamoImage (r : Root) : Root :=
  ⟨(camoL "" {} r.children).2⟩

/-- Whether a tag name is a heading, the condition under which
`hast-util-heading-rank` returns a rank. -/
def isHeadingTag (t : String) : Bool :=
  t = "h1" || t = "h2" || t = "h3" || t = "h4" || t = "h5" || t = "h6"

/-- Top-down list rewrite of `cleanMarkupAnchor`: a `div.markdown-heading`
whose first child is a heading carrying the `heading-element` class and
whose second child carries the `anchor` class is replaced by that heading
with the `heading-element` class token removed (the class attribute is
dropped entirely when it becomes empty); the anchor sibling and any further
children of the wrapper are discarded, and the traversal continues inside
the kept heading. -/
def anchorL : List Node → List Node
  | [] => []
  | .element t p (.element ft fp fc :: second :: more) :: rest =>
      if t = "div" && clsHas p "markdown-heading" && isHeadingTag ft
          && clsHas fp "heading-element"
          && (match second with
              | .element _ sp _ => clsHas sp "anchor"
              | _ => false) then
        let fcls := (match fp.className with
          | some l => l.filter (fun d => !(d == "heading-element"))
          | none => [])
        let fp1 : Properties :=
          { fp with className := if fcls.length = 0 then none else some fcls }
        .element ft fp1 (anchorL fc) :: anchorL rest
      else
        .element t p (anchorL (.element ft fp fc :: second :: more)) :: anchorL rest
  | .element t p ch :: rest => .element t p (anchorL ch) :: anchorL rest
  | n :: rest => n :: anchorL rest

/-- The transform `cleanMarkupAnchor`. -/
def cleanMarkupAnchor (r : Root) : Root :=
  ⟨anchorL r.children⟩

/-- Top-down list rewrite of `cleanMarkupImageLink`: an `a[target=_blank]`
whose only child is an `img` is replaced by that `img` in its parent (the
`target` and `rel` deletions of the source apply to the discarded anchor
and are not observable in the result). -/
def imageLinkL : List Node → List Node
  | [] => []
  | .element t p [.element ct cp cc] :: rest =>
      if t = "a" && p.target = some "_blank" && ct = "img" then
        .element ct cp (imageLinkL cc) :: imageLinkL rest
      else
        .element t p (imageLinkL [.element ct cp cc]) :: imageLinkL rest
  | .element t p ch :: rest => .element t p (imageLinkL ch) :: imageLinkL rest
  | n :: rest => n :: imageLinkL rest

/-- The transform `cleanMarkupImageLink`. -/
def cleanMarkupImageLink (r : Root) : Root :=
  ⟨imageLinkL r.children⟩

/-- Top-down list rewrite of `cleanMarkupIssue`: an `a.issue-link` is
replaced by its children (which the traversal then continues through);
otherwise an `a` whose `data-hovercard-type` is `issue` or `pull_request`
has both hovercard attributes cleared. -/
def issueL : List Node → List Node
  | [] => []
  | .element t p ch :: rest =>
      if t = "a" && clsHas p "issue-link" then
        issueL ch ++ issueL rest
      else if t = "a" && (p.dataHovercardType = some "issue"
          || p.dataHovercardType = some "pull_request") then
        .element t { p with dataHovercardType := none, dataHovercardUrl := none }
            (issueL ch) :: issueL rest
      else
        .element t p (issueL ch) :: issueL rest
  | n :: rest => n :: issueL rest

/-- The transform `cleanMarkupIssue`. -/
def cleanMarkupIssue (r : Root) : Root :=
  ⟨issueL r.children⟩

/-- Top-down list rewrite of `cleanMarkupTable`: a
`markdown-accessiblity-table` element (the misspelling is the upstream
custom element name) is replaced by its children. -/
def tableL : List Node → List Node
  | [] => []
  | .element t p ch :: rest =>
      if t = "markdown-accessiblity-table" then
        tableL ch ++ tableL rest
      else
        .element t p (tableL ch) :: tableL rest
  | n :: rest => n :: tableL rest

/-- The transform `cleanMarkupTable`. -/
def cleanMarkupTable (r : Root) : Root :=
  ⟨tableL r.children⟩

/-- Whether an element is a `table` with a `tbody` child containing a `tr`
containing a `td` containing a `div`: the rightmost compound of the
selector `table > tbody > tr > td > div`. -/
def isTablePathAt (n : Node) : Bool :=
  match n with
  | .element "table" _ ch =>
      ch.any fun tb =>
        match tb with
        | .element "tbody" _ tbch =>
            tbch.any fun tr =>
              match tr with
              | .element "tr" _ trch =>
                  trch.any fun td =>
                    match td with
                    | .element "td" _ tdch =>
                        tdch.any fun dv =>
                          match dv with
                          | .element "div" _ _ => true
                          | _ => false
                    | _ => false
              | _ => false
        | _ => false
  | _ => false

mutual

/-- Whether `select('table > tbody > tr > td > div', n)` finds a match in
the subtree rooted at `n`. -/
def hasTablePath : Node → Bool
  | .element t p ch => isTablePathAt (.element t p ch) || hasTablePathList ch
  | n => isTablePathAt n

/-- List version of `hasTablePath`. -/
def hasTablePathList : List Node → Bool
  | [] => false
  | c :: rest => hasTablePath c || hasTablePathList rest

end

/-- The condition of `cleanMarkupFrontmatter` on the first root child:
`matches('markdown-accessiblity-table', head)` together with
`select('table > tbody > tr > td > div', head)`. -/
def isFrontmatterHead (n : Node) : Bool :=
  (match n with
   | .element "markdown-accessiblity-table" _ _ => true
   | _ => false) && hasTablePath n

/-- The transform `cleanMarkupFrontmatter`: when the root has more than one
child, the first child is the frontmatter table wrapper and the second
child is a text node of exactly two newlines, remove both; otherwise leave
the root unchanged. -/
def cleanMarkupFrontmatter (r : Root) : Root :=
  let headOk := match r.children[0]? with
    | some h => isFrontmatterHead h
    | none => false
  let secondOk := match r.children[1]? with
    | some (Node.text v) => v == "\n\n"
    | _ => false
  if decide (1 < r.children.length) && headOk && secondOk then
    ⟨r.children.drop 2⟩
  else r

/-- The `keep` configuration toggles of `createGfmFixtures` (absent toggles
default to `false`, meaning the corresponding rule stays active). -/
structure Keep where
  camo : Bool := false
  dir : Bool := false
  frontmatter : Bool := false
  heading : Bool := false
  image : Bool := false
  issue : Bool := false
  link : Bool := false
  mention : Bool := false
  table : Bool := false
  tasklist : Bool := false
  deriving DecidableEq, Repr

/-- Names for the cleaning rules that the two pipeline builders register. -/
inductive Rule where
  | camo
  | dir
  | frontmatter
  | anchor
  | imageStyle
  | imageLink
  | issue
  | linkRel
  | mention
  | footnoteIdHash
  | table
  | tasklist
  | sourcepos
  deriving DecidableEq, Repr

/-- Interpretation of a rule name as the transform it denotes. -/
def applyRule : Rule → Root → Root
  | .camo => cleanMarkupCamoImage
  | .dir => cleanMarkupDir
  | .frontmatter => cleanMarkupFrontmatter
  | .anchor => cleanMarkupAnchor
  | .imageStyle => cleanMarkupImageStyle
  | .imageLink => cleanMarkupImageLink
  | .issue => cleanMarkupIssue
  | .linkRel => cleanMarkupLinkRel
  | .mention => cleanMarkupUserMention
  | .footnoteIdHash => cleanMarkupFootnoteIdHash
  | .table => cleanMarkupTable
  | .tasklist => cleanMarkupTasklist
  | .sourcepos => cleanMarkupSourcepos

/-- The transform list built by `createGfmFixtures` in `src/lib/index.js`
(lines 496-508), in registration order. -/
def transforms (keep : Keep) : List Rule :=
  (if !keep.camo then [Rule.camo] else [])
    ++ ((if !keep.dir then [Rule.dir] else [])
    ++ ((if !keep.frontmatter then [Rule.frontmatter] else [])
    ++ ((if !keep.heading then [Rule.anchor] else [])
    ++ ((if !keep.image then [Rule.imageStyle, Rule.imageLink] else [])
    ++ ((if !keep.issue then [Rule.issue] else [])
    ++ ((if !keep.link then [Rule.linkRel] else [])
    ++ ((if !keep.mention then [Rule.mention] else [])
    ++ (Rule.footnoteIdHash
    :: ((if !keep.table then [Rule.table] else [])
    ++ (if !keep.tasklist then [Rule.tasklist] else []))))))))))

/-- The transform list built by the historical `createGfmFixtures` in
`src/unnamed/part_002` (lines 486-503): `cleanMarkupSourcepos` first and
unconditionally, then the toggled rules, then `cleanMarkupFootnoteIdHash`
unconditionally (that variant has no `issue` or `table` toggle). -/
def part002Transforms (keep : Keep) : List Rule :=
  Rule.sourcepos
    :: ((if !keep.camo then [Rule.camo] else [])
    ++ ((if !keep.dir then [Rule.dir] else [])
    ++ ((if !keep.frontmatter then [Rule.frontmatter] else [])
    ++ ((if !keep.heading then [Rule.anchor] else [])
    ++ ((if !keep.image then [Rule.imageStyle, Rule.imageLink] else [])
    ++ ((if !keep.link then [Rule.linkRel] else [])
    ++ ((if !keep.mention then [Rule.mention] else [])
    ++ (Rule.footnoteIdHash
    :: (if !keep.tasklist then [Rule.tasklist] else [])))))))))

/-- Application of the full active rule set to a fragment, in registration
order (the per-fragment transform loop of `createGfmFixtures`). -/
def applyTransforms (keep : Keep) (r : Root) : Root :=
  (transforms keep).foldl (fun acc rule => applyRule rule acc) r

/-- The default configuration: no `keep` toggle set, every rule active. -/
def defaultKeep : Keep := {}

/-- Stability of one property set under the footnote strip: after one
strip, neither `href` nor `id` again ends in a `-` + 32-hex-digit
suffix. -/
def footnoteFieldsStable (p : Properties) : Bool :=
  (match p.href with
   | some v => !hasFootnoteHashSuffix (stripFootnoteHash v)
   | none => true)
  && (match p.id with
      | some v => !hasFootnoteHashSuffix (stripFootnoteHash v)
      | none => true)

mutual

/-- Per-element stability condition for `cleanMarkupFootnoteIdHash`: every
element matched by the footnote selector has `href` and `id` values that,
after one strip of a trailing `-` + 32-hex-digit suffix, do not again end
in such a suffix. -/
def footnoteStable : Node → Bool
  | .element t p c =>
      (if matchesFootnoteSel t p then footnoteFieldsStable p else true)
        && footnoteStableList c
  | _ => true

/-- List version of `footnoteStable`. -/
def footnoteStableList : List Node → Bool
  | [] => true
  | c :: rest => footnoteStable c && footnoteStableList rest

end

/-- Root version of `footnoteStable`. -/
def footnoteStableRoot (r : Root) : Bool :=
  footnoteStableList r.children

/-- Mode of a markdown source, derived from the last dot-separated stem
segment of its filename. -/
inductive Mode where
  | file
  | comment
  deriving DecidableEq, Repr

/-- A discovered markdown file, as far as the generation run observes it:
the dot-separated stem segments of its name, whether its `.html` output
already exists, its raw content, and the (derived) output location. -/
structure Source where
  parts : List String
  outputExists : Bool
  value : String
  outputPath : String
  deriving DecidableEq, Repr

/-- Mode derivation (`const last = parts.pop(); mode = last === 'comment' ?
last : 'file'`). -/
def sourceMode (s : Source) : Mode :=
  match s.parts.getLast? with
  | some "comment" => Mode.comment
  | _ => Mode.file

/-- The per-file generation decision of `createGfmFixtures` (lines
518-528): start from `true`; an `offline` stem segment forces `false`;
otherwise, without the `UPDATE` environment flag, an existing output
forces `false`. -/
def generateDecision (parts : List String) (update : Bool) (outputExists : Bool) : Bool :=
  if parts.contains "offline" then false
  else if !update then !outputExists
  else true

/-- The environment the run reads: the `UPDATE` regeneration flag
(truthiness collapsed to a boolean) and the two credential variables
`GH_TOKEN` and `GITHUB_TOKEN`. -/
structure Env where
  update : Bool := false
  ghToken : Option String := none
  githubToken : Option String := none
  deriving DecidableEq, Repr

/-- The credential actually used: `process.env.GH_TOKEN ||
process.env.GITHUB_TOKEN` with JavaScript truthiness. -/
def envToken (env : Env) : Option String :=
  if jsTruthy env.ghToken then env.ghToken else env.githubToken

/-- The sources that participate in this run (`allInput.filter(d =>
d.generate)`). -/
def eligible (env : Env) (srcs : List Source) : List Source :=
  srcs.filter fun s => generateDecision s.parts env.update s.outputExists

/-- Per-entry metadata of the gist-creation response. -/
structure GistFileInfo where
  language : Option String := none
  truncated : Bool := false
  deriving DecidableEq, Repr

/-- The fields of the gist-creation response that the run validates. -/
structure GistResponse where
  files : Option (List (String × GistFileInfo)) := none
  htmlUrl : Option String := none
  id : Option String := none
  deriving DecidableEq, Repr

/-- A `.file` container of the fetched rendered page: its
`.gist-blob-name` text and its `.markdown-body` children, either possibly
missing. -/
structure RenderedFileNode where
  name : Option String := none
  body : Option (List Node) := none
  deriving Repr

/-- Everything the remote service answers during one run: the
gist-creation response and the containers found in the fetched page. -/
structure RemoteWorld where
  gist : GistResponse := {}
  fileNodes : List RenderedFileNode := []
  commentNodes : List (List Node) := []
  deriving Repr

/-- The externally visible events of one run, in order.  A failed
assertion or thrown error appears as `fail` and ends the trace. -/
inductive Event where
  | createGist (files : List (String × String))
  | postComment
  | fetchPage
  | deleteGist
  | write (path : String)
  | fail (msg : String)
  deriving DecidableEq, Repr

/-- The gist file map built by the loop of lines 575-585: one
`readme-<n>.md` entry per file-mode source, numbered in batch order. -/
def buildFilesLoop (input : List Source) (fileInputIndex : Nat) : List (String × String) :=
  match input with
  | [] => []
  | s :: rest =>
    match sourceMode s with
    | Mode.file =>
        ("readme-" ++ toString fileInputIndex ++ ".md", s.value)
          :: buildFilesLoop rest (fileInputIndex + 1)
    | Mode.comment => buildFilesLoop rest fileInputIndex

/-- The submitted gist file map, including the placeholder of lines
587-590: a gist must contain at least one file. -/
def buildFiles (input : List Source) : List (String × String) :=
  let files := buildFilesLoop input 0
  if files.isEmpty then [("readme-0.md", ".")] else files

/-- First failing per-entry assertion over the returned gist files (lines
604-623): every entry must be detected as Markdown and not truncated. -/
def gistEntryFailure : List (String × GistFileInfo) → Option String
  | [] => none
  | (_, info) :: rest =>
      if !(info.language = some "Markdown") then
        some "expected github seeing the file as plain text data (markdown)"
      else if info.truncated then
        some "expected github not truncating the file"
      else gistEntryFailure rest

/-- Strip leading and trailing whitespace, modelling `String.trim`. -/
def jsTrimChars (cs : List Char) : List Char :=
  ((cs.dropWhile isJsSpace).reverse.dropWhile isJsSpace).reverse

/-- Parse a nonempty leading digit run, as the capture group of the slot
pattern followed by `Number.parseInt(-, 10)`. -/
def parseDigits (cs : List Char) : Option (Nat × List Char) :=
  let ds := cs.takeWhile Char.isDigit
  if ds.isEmpty then none
  else some (ds.foldl (fun n c => n * 10 + (c.toNat - '0'.toNat)) 0, cs.dropWhile Char.isDigit)

/-- The strict slot-name pattern of line 663: trim the visible name, then
match a readme slot name anchored on both sides (the regular expression
with `readme-`, one or more digits, `.md`, and optional surrounding
whitespace) and return its parsed integer. -/
def parseReadmeName (s : String) : Option Nat :=
  let cs := (jsTrimChars s.data).dropWhile isJsSpace
  match dropLit "readme-".data cs with
  | none => none
  | some cs1 =>
    match parseDigits cs1 with
    | none => none
    | some (n, cs2) =>
      match dropLit ".md".data cs2 with
      | none => none
      | some cs3 => if cs3.all isJsSpace then some n else none

/-- JavaScript sparse-array assignment `a[i] = v`: extend with holes
(`none`) up to index `i` if needed, then set position `i`. -/
def setAt (l : List (Option (List Node))) (i : Nat) (v : List Node) : List (Option (List Node)) :=
  let padded := if l.length < i + 1 then l ++ List.replicate (i + 1 - l.length) none else l
  padded.set i (some v)

/-- The file-container extraction loop of lines 656-679: for each `.file`
container assert a name is present, assert the strict slot pattern
matches, assert a body is present, and place the body at the parsed index
of the results array. -/
def extractLoop (nodes : List RenderedFileNode) (acc : List (Option (List Node))) :
    Except String (List (Option (List Node))) :=
  match nodes with
  | [] => Except.ok acc
  | nd :: rest =>
    match nd.name with
    | none => Except.error "expected github file to have a name"
    | some nm =>
      match parseReadmeName nm with
      | none => Except.error "expected gist file name to match the readme slot pattern"
      | some i =>
        match nd.body with
        | none => Except.error "expected github to render the body"
        | some b => extractLoop rest (setAt acc i b)

/-- The event trace of one `createGfmFixtures` run over the given sources,
environment and remote responses, following the control flow of lines
510-725: filter to generate-eligible sources, return early when none
remain, require a credential, create the gist and validate its response,
post one comment per comment-mode source, fetch and delete, extract (with
its assertions), then write one output per eligible source. -/
def run (srcs : List Source) (env : Env) (remote : RemoteWorld) : List Event :=
  let input := eligible env srcs
  if input.length = 0 then []
  else if !jsTruthy (envToken env) then
    [Event.fail "Missing GitHub token: expected GH_TOKEN in env"]
  else
    Event.createGist (buildFiles input) ::
      match remote.gist.files with
      | none => [Event.fail "expected files to be returned by GH"]
      | some gfiles =>
        if !jsTruthy remote.gist.htmlUrl then
          [Event.fail "expected html_url to be returned by GH"]
        else if !jsTruthy remote.gist.id then
          [Event.fail "expected id to be returned by GH"]
        else
          match gistEntryFailure gfiles with
          | some m => [Event.fail m]
          | none =>
            ((input.filter fun s => sourceMode s = Mode.comment).map
                fun _ => Event.postComment)
              ++ Event.fetchPage :: Event.deleteGist ::
                match extractLoop remote.fileNodes [] with
                | Except.error m => [Event.fail m]
                | Except.ok _ => input.map fun s => Event.write s.outputPath

/-- The output paths written during a trace. -/
def writesOf (trace : List Event) : List String :=
  trace.filterMap fun e =>
    match e with
    | Event.write p => some p
    | _ => none

/-- Whether a string ends in a newline: the test performed by the
trailing-newline regular expression of line 720 (no multiline flag, so it
anchors at the very end of the string). -/
def endsNewline (s : String) : Bool :=
  match s.data.getLast? with
  | some c => c == '\n'
  | none => false

/-- The newline normalization of lines 718-722: append a trailing newline
when the serialized string is nonempty and does not already end in one. -/
def normalizeOutput (clean : String) : String :=
  if !(clean == "") && !endsNewline clean then clean ++ "\n" else clean

/-! ## Example fixtures used by witnesses and counterexamples -/

/-- An offline source (`a.offline.md`). -/
def srcOffline : Source :=
  { parts := ["a", "offline"], outputExists := false, value := "x",
    outputPath := "a.offline.html" }

/-- A source whose output already exists (`b.md` with `b.html` present). -/
def srcCached : Source :=
  { parts := ["b"], outputExists := true, value := "y", outputPath := "b.html" }

/-- A fresh file-mode source (`a.md`, no output yet). -/
def srcFresh : Source :=
  { parts := ["a"], outputExists := false, value := "x", outputPath := "a.html" }

/-- An environment carrying a credential. -/
def envWithToken : Env := { ghToken := some "t" }

/-- A remote world answering one valid gist entry and one rendered file
container named `readme-0.md`. -/
def remoteOk : RemoteWorld :=
  { gist := { files := some [("readme-0.md", { language := some "Markdown" })],
              htmlUrl := some "u", id := some "i" },
    fileNodes := [{ name := some "readme-0.md", body := some [] }] }

/-- A comment-mode source (`c.comment.md`). -/
def srcComment : Source :=
  { parts := ["c", "comment"], outputExists := false, value := "Z",
    outputPath := "c.comment.html" }

/-- Claim-side condition of the frontmatter rule, written from the words of
the specification: the very first top-level node is the frontmatter table
wrapper (with the `table`, `tbody`, `tr`, `td`, `div` descendant path) and
the node immediately after it is a text node of exactly two newlines. -/
def frontmatterCond (r : Root) : Bool :=
  match r.children with
  | head :: Node.text v :: _ => isFrontmatterHead head && v == "\n\n"
  | _ => false

/-- Frontmatter wrapper example: the rendered frontmatter table. -/
def fmWrapper : Node :=
  Node.element "markdown-accessiblity-table" {}
    [Node.element "table" {}
      [Node.element "tbody" {}
        [Node.element "tr" {}
          [Node.element "td" {}
            [Node.element "div" {} []]]]]]

/-- A fragment starting with the frontmatter table, the two-newline text
node, and a heading. -/
def fmRoot : Root :=
  ⟨[fmWrapper, Node.text "\n\n", Node.element "h1" {} [Node.text "c"]]⟩

/-- The slot index encoded in the visible name of a rendered file
container, when it parses. -/
def slotIndex (nd : RenderedFileNode) : Option Nat :=
  match nd.name with
  | some nm => parseReadmeName nm
  | none => none

/-- A defective rendered file container: no discoverable name, a name not
matching the strict slot pattern, or no discoverable body. -/
def badFileNode (nd : RenderedFileNode) : Prop :=
  nd.name = none
    ∨ (∃ nm, nd.name = some nm ∧ parseReadmeName nm = none)
    ∨ nd.body = none

/-- Rendered file containers presented in the opposite of batch order. -/
def nodesOutOfOrder : List RenderedFileNode :=
  [{ name := some "readme-1.md", body := some [Node.text "B"] },
   { name := some "readme-0.md", body := some [Node.text "A"] }]

/-- A footnote reference whose `href` carries two stacked 32-hex-digit
suffixes. -/
def doubleHashTree : Root :=
  ⟨[Node.element "a"
      { href := some
          "#user-content-fn-1-0123456789abcdef0123456789abcdef-0123456789abcdef0123456789abcdef",
        dataFootnoteRef := some "" }
      [Node.text "1"]]⟩

/-- A footnote reference with a single 32-hex-digit suffix (the shape the
remote renderer actually produces). -/
def singleHashTree : Root :=
  ⟨[Node.element "a"
      { href := some "#user-content-fn-1-0123456789abcdef0123456789abcdef",
        dataFootnoteRef := some "" }
      [Node.text "1"]]⟩

/-- Observation used to separate trees: the `href` of the first top-level
element. -/
def rootFirstHref (r : Root) : Option String :=
  match r.children with
  | Node.element _ p _ :: _ => p.href
  | _ => none

/-! ## Helper lemmas -/

/-- A full run trace has one of five shapes: empty (nothing eligible), an
immediate credential failure, a gist-validation failure, an extraction
failure after fetch and delete, or the full success trace ending in one
write per eligible source. -/
theorem run_shape (srcs : List Source) (env : Env) (remote : RemoteWorld) :
    (run srcs env remote = [] ∧ eligible env srcs = []) ∨
    (∃ m, run srcs env remote = [Event.fail m]) ∨
    (∃ m, run srcs env remote =
      [Event.createGist (buildFiles (eligible env srcs)), Event.fail m]) ∨
    (∃ m, run srcs env remote =
      Event.createGist (buildFiles (eligible env srcs)) ::
        ((((eligible env srcs).filter fun s => sourceMode s = Mode.comment).map
            fun _ => Event.postComment)
          ++ Event.fetchPage :: Event.deleteGist :: [Event.fail m])) ∨
    run srcs env remote =
      Event.createGist (buildFiles (eligible env srcs)) ::
        ((((eligible env srcs).filter fun s => sourceMode s = Mode.comment).map
            fun _ => Event.postComment)
          ++ Event.fetchPage :: Event.deleteGist ::
            (eligible env srcs).map fun s => Event.write s.outputPath) := by
  by_cases h0 : (eligible env srcs).length = 0
  · exact Or.inl ⟨by simp [run, h0], List.length_eq_zero.mp h0⟩
  · by_cases htok : (!jsTruthy (envToken env)) = true
    · exact Or.inr (Or.inl ⟨"Missing GitHub token: expected GH_TOKEN in env",
        by simp [run, h0, htok]⟩)
    · cases hgf : remote.gist.files with
      | none =>
        exact Or.inr (Or.inr (Or.inl ⟨"expected files to be returned by GH",
          by simp [run, h0, htok, hgf]⟩))
      | some gfiles =>
        by_cases hhu : (!jsTruthy remote.gist.htmlUrl) = true
        · exact Or.inr (Or.inr (Or.inl ⟨"expected html_url to be returned by GH",
            by simp [run, h0, htok, hgf, hhu]⟩))
        · by_cases hid : (!jsTruthy remote.gist.id) = true
          · exact Or.inr (Or.inr (Or.inl ⟨"expected id to be returned by GH",
              by simp [run, h0, htok, hgf, hhu, hid]⟩))
          · cases hef : gistEntryFailure gfiles with
            | some m =>
              exact Or.inr (Or.inr (Or.inl ⟨m, by simp [run, h0, htok, hgf, hhu, hid, hef]⟩))
            | none =>
              cases hex : extractLoop remote.fileNodes [] with
              | error m =>
                refine Or.inr (Or.inr (Or.inr (Or.inl ⟨m, ?_⟩)))
                simp [run, h0, htok, hgf, hhu, hid, hef, hex]
              | ok res =>
                refine Or.inr (Or.inr (Or.inr (Or.inr ?_)))
                simp [run, h0, htok, hgf, hhu, hid, hef, hex]

/-- Any write event of a run names the output path of a generate-eligible
source. -/
theorem write_mem_run {srcs : List Source} {env : Env} {remote : RemoteWorld} {p : String}
    (h : Event.write p ∈ run srcs env remote) :
    p ∈ (eligible env srcs).map Source.outputPath := by
  rcases run_shape srcs env remote with ⟨hr, -⟩ | ⟨m, hr⟩ | ⟨m, hr⟩ | ⟨m, hr⟩ | hr <;>
    rw [hr] at h <;> simp at h
  obtain ⟨s, hs, hp⟩ := h
  exact List.mem_map.mpr ⟨s, hs, hp⟩

/-! ## Claim theorems -/

/-- C9.  The written output string equals the serialized cleaned fragment
with a single trailing newline appended exactly when the serialization is
nonempty and does not already end in a newline; an empty serialization is
written unchanged (as the empty string), and an already newline-terminated
one is unchanged. -/
theorem claim_c9_theorem (s : String) :
    (normalizeOutput s = s ++ "\n" ↔ (¬s = "" ∧ endsNewline s = false)) ∧
    (s = "" → normalizeOutput s = s) ∧
    (endsNewline s = true → normalizeOutput s = s) := by
  have hne : ¬s = s ++ "\n" := by
    intro hcontra
    have h2 := congrArg String.length hcontra
    rw [String.length_append] at h2
    have h3 : ("\n" : String).length = 1 := rfl
    omega
  refine ⟨⟨?_, ?_⟩, ?_, ?_⟩
  · intro h
    by_cases h1 : s = ""
    · exfalso
      rw [h1] at h
      revert h
      decide
    · by_cases h2 : endsNewline s
      · exfalso
        have hid : normalizeOutput s = s := by simp [normalizeOutput, h2]
        rw [hid] at h
        exact hne h
      · exact ⟨h1, by simpa using h2⟩
  · intro ⟨h1, h2⟩
    simp [normalizeOutput, h1, h2]
  · intro h
    simp [normalizeOutput, h]
  · intro h
    simp [normalizeOutput, h]

/-- C9 witness: concrete evaluations of the three cases. -/
theorem claim_c9_witness :
    normalizeOutput "<h1>hi</h1>" = "<h1>hi</h1>" ++ "\n" :=
  (claim_c9_theorem _).1.mpr ⟨by decide, by decide⟩

/-- C10.  When no discovered source needs generation, the run performs no
remote call, writes nothing, and raises no error (in particular the
credential variables are not consulted): its event trace is empty. -/
theorem claim_c10_theorem (srcs : List Source) (env : Env) (remote : RemoteWorld)
    (h : eligible env srcs = []) : run srcs env remote = [] := by
  simp [run, h]

/-- C10 witness: one offline source plus one source whose output already
exists, with the regenerate flag unset and no credential in the
environment. -/
theorem claim_c10_witness :
    eligible {} [srcOffline, srcCached] = [] ∧
    run [srcOffline, srcCached] {} {} = [] :=
  ⟨rfl, claim_c10_theorem _ _ _ rfl⟩

/-- C6.  When neither credential environment variable is set and at least
one source needs generation, the run fails with the missing-token error
and its trace contains nothing else: the failure precedes any remote
call. -/
theorem claim_c6_theorem (srcs : List Source) (env : Env) (remote : RemoteWorld)
    (h1 : env.ghToken = none) (h2 : env.githubToken = none)
    (h3 : ¬eligible env srcs = []) :
    run srcs env remote = [Event.fail "Missing GitHub token: expected GH_TOKEN in env"] := by
  have htok : envToken env = none := by simp [envToken, h1, h2, jsTruthy]
  simp [run, htok, jsTruthy, h3, List.length_eq_zero]

/-- C6 witness: a fresh source with an empty environment. -/
theorem claim_c6_witness :
    run [srcFresh] {} {} =
      [Event.fail "Missing GitHub token: expected GH_TOKEN in env"] :=
  claim_c6_theorem _ _ _ rfl rfl (by decide)

/-- C5.  For every configuration of the keep toggles, the pipeline of
`src/lib/index.js` registers the footnote-id-hash rule, and the pipeline of
the variant `src/unnamed/part_002` (the one containing the position-marker
rule `cleanMarkupSourcepos`) registers both the footnote-id-hash rule and
the position-marker rule; none of these registrations is conditional on a
toggle. -/
theorem claim_c5_theorem (keep : Keep) :
    Rule.footnoteIdHash ∈ transforms keep ∧
    Rule.footnoteIdHash ∈ part002Transforms keep ∧
    Rule.sourcepos ∈ part002Transforms keep := by
  refine ⟨?_, ?_, ?_⟩
  · unfold transforms
    exact List.mem_append_right _ (List.mem_append_right _ (List.mem_append_right _
      (List.mem_append_right _ (List.mem_append_right _ (List.mem_append_right _
        (List.mem_append_right _ (List.mem_append_right _ (List.mem_cons_self _ _))))))))
  · unfold part002Transforms
    exact List.mem_cons_of_mem _ (List.mem_append_right _ (List.mem_append_right _
      (List.mem_append_right _ (List.mem_append_right _ (List.mem_append_right _
        (List.mem_append_right _ (List.mem_append_right _ (List.mem_cons_self _ _))))))))
  · unfold part002Transforms
    exact List.mem_cons_self _ _

/-- C2.  The generation decision equals
`!offline && (forceRegenerate || outputMissing)`, where `offline` holds
exactly when some dot-separated stem segment is `offline`; consequently a
run never writes the output path of an offline source, whatever the
environment and remote behaviour (assuming output paths identify sources
uniquely, as the extension-replacement of distinct relative paths does). -/
theorem claim_c2_theorem :
    (∀ (parts : List String) (update outputExists : Bool),
      generateDecision parts update outputExists =
        (!parts.contains "offline" && (update || !outputExists))) ∧
    (∀ (srcs : List Source) (env : Env) (remote : RemoteWorld) (s : Source),
      s ∈ srcs → s.parts.contains "offline" = true →
      (∀ a ∈ srcs, ∀ b ∈ srcs, a.outputPath = b.outputPath → a = b) →
      Event.write s.outputPath ∉ run srcs env remote) := by
  constructor
  · intro parts update outputExists
    unfold generateDecision
    cases hc : parts.contains "offline" <;> cases update <;> cases outputExists <;> simp [hc]
  · intro srcs env remote s hs hoff hinj hmem
    obtain ⟨s', hs'el, hps⟩ := List.mem_map.mp (write_mem_run hmem)
    have hpair := List.mem_filter.mp
      (show s' ∈ srcs.filter
          (fun a => generateDecision a.parts env.update a.outputExists) from hs'el)
    have hs'mem : s' ∈ srcs := hpair.1
    have hgen : generateDecision s'.parts env.update s'.outputExists = true := hpair.2
    have heq : s' = s := hinj s' hs'mem s hs hps
    rw [heq] at hgen
    unfold generateDecision at hgen
    rw [hoff] at hgen
    simp at hgen

/-- C2 witness: the offline source is never written even with the
regenerate flag set and a credential present. -/
theorem claim_c2_witness :
    Event.write "a.offline.html" ∉
      run [srcOffline] { update := true, ghToken := some "t" } {} :=
  claim_c2_theorem.2 [srcOffline] { update := true, ghToken := some "t" } {} srcOffline
    (List.mem_cons_self _ _) rfl (by decide)

/-- C3.  Every validation assertion is evaluated before any output write:
a trace that contains a failure contains no write, and a failure-free
trace writes exactly one output per generate-eligible source, in batch
order. -/
theorem claim_c3_theorem (srcs : List Source) (env : Env) (remote : RemoteWorld) :
    ((∃ m, Event.fail m ∈ run srcs env remote) →
      ∀ p, Event.write p ∉ run srcs env remote) ∧
    ((∀ m, Event.fail m ∉ run srcs env remote) →
      writesOf (run srcs env remote) = (eligible env srcs).map Source.outputPath) := by
  rcases run_shape srcs env remote with ⟨hr, he⟩ | ⟨m, hr⟩ | ⟨m, hr⟩ | ⟨m, hr⟩ | hr
  · constructor
    · intro _ p
      rw [hr]
      simp
    · intro _
      rw [hr, he]
      simp [writesOf]
  · constructor
    · intro _ p
      rw [hr]
      simp
    · intro hnf
      exfalso
      exact hnf m (by rw [hr]; exact List.mem_singleton.mpr rfl)
  · constructor
    · intro _ p
      rw [hr]
      simp
    · intro hnf
      exfalso
      exact hnf m (by rw [hr]; simp)
  · constructor
    · intro _ p
      rw [hr]
      simp
    · intro hnf
      exfalso
      exact hnf m (by rw [hr]; simp)
  · constructor
    · intro ⟨m, hm⟩ p
      exfalso
      rw [hr] at hm
      simp at hm
    · intro _
      rw [hr]
      simp only [writesOf, List.filterMap_cons, List.filterMap_append, List.filterMap_map,
        Function.comp_def]
      rw [show (fun x : Source => some x.outputPath) = some ∘ Source.outputPath from rfl,
        List.filterMap_eq_map]
      simp

/-- C3 witness: a failure-free run over one fresh source writes exactly its
output. -/
theorem claim_c3_witness :
    writesOf (run [srcFresh] envWithToken remoteOk) =
      (eligible envWithToken [srcFresh]).map Source.outputPath :=
  (claim_c3_theorem _ _ _).2 (by
    intro m hm
    rw [show run [srcFresh] envWithToken remoteOk =
        [Event.createGist [("readme-0.md", "x")], Event.fetchPage, Event.deleteGist,
          Event.write "a.html"] from by decide] at hm
    simp at hm)

/-- The submitted gist file map is never empty. -/
theorem buildFiles_length (input : List Source) : 1 ≤ (buildFiles input).length := by
  unfold buildFiles
  by_cases h : (buildFilesLoop input 0).isEmpty <;> simp [h]
  rw [List.isEmpty_iff] at h
  exact List.length_pos.mpr h

/-- Without any file-mode source the numbering loop produces nothing. -/
theorem buildFilesLoop_nil_of_no_file (input : List Source) (i : Nat)
    (h : input.filter (fun s => sourceMode s = Mode.file) = []) :
    buildFilesLoop input i = [] := by
  induction input generalizing i with
  | nil => rfl
  | cons s rest ih =>
    rw [List.filter_cons] at h
    by_cases hm : sourceMode s = Mode.file
    · simp [hm] at h
    · cases hsm : sourceMode s with
      | file => exact absurd hsm hm
      | comment =>
        rw [show buildFilesLoop (s :: rest) i = buildFilesLoop rest i from by
          simp [buildFilesLoop, hsm]]
        exact ih i (by simpa [hm] using h)

/-- C7.  Every gist submission of a run carries at least one named file
entry, and when the eligible batch has no file-mode source the submitted
map is exactly the single placeholder entry. -/
theorem claim_c7_theorem (srcs : List Source) (env : Env) (remote : RemoteWorld)
    (fs : List (String × String)) (h : Event.createGist fs ∈ run srcs env remote) :
    1 ≤ fs.length ∧
    ((eligible env srcs).filter (fun s => sourceMode s = Mode.file) = [] →
      fs = [("readme-0.md", ".")]) := by
  have hfs : fs = buildFiles (eligible env srcs) := by
    rcases run_shape srcs env remote with ⟨hr, -⟩ | ⟨m, hr⟩ | ⟨m, hr⟩ | ⟨m, hr⟩ | hr <;>
      rw [hr] at h <;> simp at h <;> exact h
  subst hfs
  constructor
  · exact buildFiles_length _
  · intro hnofile
    simp [buildFiles, buildFilesLoop_nil_of_no_file _ 0 hnofile]

/-- C8.  The frontmatter transform removes exactly the first two root
children precisely when the first top-level node is the frontmatter table
wrapper (wrapper tag plus `table`, `tbody`, `tr`, `td`, `div` descendant
path) and the second is a text node of exactly two newlines; in every
other case the fragment is unchanged. -/
theorem claim_c8_theorem (r : Root) :
    (frontmatterCond r = true → cleanMarkupFrontmatter r = ⟨r.children.drop 2⟩) ∧
    (frontmatterCond r = false → cleanMarkupFrontmatter r = r) := by
  obtain ⟨children⟩ := r
  match children with
  | [] => exact ⟨fun h => by simp [frontmatterCond] at h, fun _ => by simp [cleanMarkupFrontmatter]⟩
  | [a] =>
    refine ⟨fun h => by simp [frontmatterCond] at h, fun _ => ?_⟩
    simp [cleanMarkupFrontmatter]
  | a :: Node.element t p c :: rest =>
    refine ⟨fun h => by simp [frontmatterCond] at h, fun _ => ?_⟩
    simp [cleanMarkupFrontmatter]
  | a :: Node.comment v :: rest =>
    refine ⟨fun h => by simp [frontmatterCond] at h, fun _ => ?_⟩
    simp [cleanMarkupFrontmatter]
  | a :: Node.text v :: rest =>
    constructor
    · intro h
      simp [frontmatterCond] at h
      obtain ⟨hh, hv⟩ := h
      simp [cleanMarkupFrontmatter, hh, hv]
    · intro h
      simp [frontmatterCond] at h
      by_cases hh : isFrontmatterHead a
      · have hv := h hh
        simp [cleanMarkupFrontmatter, hh, hv]
      · simp [cleanMarkupFrontmatter, hh]

/-- C8 witness: a concrete frontmatter fragment is spliced, leaving only
the heading. -/
theorem claim_c8_witness :
    frontmatterCond fmRoot = true ∧
    cleanMarkupFrontmatter fmRoot = ⟨[Node.element "h1" {} [Node.text "c"]]⟩ :=
  ⟨rfl, by rw [(claim_c8_theorem fmRoot).1 rfl]; rfl⟩

/-- Sparse assignment puts the value at the assigned index. -/
theorem getElem_setAt_self (l : List (Option (List Node))) (i : Nat) (v : List Node) :
    (setAt l i v)[i]? = some (some v) := by
  unfold setAt
  by_cases h : l.length < i + 1 <;> simp only [h, if_true, if_false, reduceIte]
  · exact List.getElem?_set_self (by simp [List.length_append]; omega)
  · exact List.getElem?_set_self (by omega)

/-- Sparse assignment preserves entries present at other indices. -/
theorem getElem_setAt_ne (l : List (Option (List Node))) (i j : Nat) (v : List Node)
    (hij : ¬i = j) (y : Option (List Node)) (hy : l[j]? = some y) :
    (setAt l i v)[j]? = some y := by
  have hj : j < l.length := by
    by_contra hc
    push_neg at hc
    rw [List.getElem?_eq_none hc] at hy
    cases hy
  unfold setAt
  by_cases h : l.length < i + 1 <;> simp only [h, if_true, if_false, reduceIte]
  · rw [List.getElem?_set_ne hij, List.getElem?_append_left hj]
    exact hy
  · rw [List.getElem?_set_ne hij]
    exact hy

/-- A successful extraction never disturbs an already placed fragment whose
index no remaining container reuses. -/
theorem extractLoop_keeps (nodes : List RenderedFileNode) :
    ∀ (acc res : List (Option (List Node))), extractLoop nodes acc = Except.ok res →
    ∀ (i : Nat) (y : List Node), acc[i]? = some (some y) →
    (∀ nd ∈ nodes, ¬slotIndex nd = some i) → res[i]? = some (some y) := by
  induction nodes with
  | nil =>
    intro acc res h i y hacc _
    unfold extractLoop at h
    injection h with h
    rw [← h]
    exact hacc
  | cons head rest ih =>
    intro acc res h i y hacc hni
    unfold extractLoop at h
    cases hn : head.name with
    | none => simp [hn] at h
    | some nm =>
      simp only [hn] at h
      cases hp : parseReadmeName nm with
      | none => simp [hp] at h
      | some j =>
        simp only [hp] at h
        cases hb : head.body with
        | none => simp [hb] at h
        | some b =>
          simp only [hb] at h
          have hji : ¬j = i := by
            intro hji
            exact hni head (List.mem_cons_self _ _) (by simp [slotIndex, hn, hp, hji])
          exact ih (setAt acc j b) res h i y
            (getElem_setAt_ne acc j i b hji (some y) hacc)
            (fun nd hm => hni nd (List.mem_cons_of_mem _ hm))

/-- A successful extraction places each container body at its parsed slot
index (when no two containers claim the same slot). -/
theorem extractLoop_ok_mem (nodes : List RenderedFileNode) :
    ∀ (acc res : List (Option (List Node))), extractLoop nodes acc = Except.ok res →
    nodes.Pairwise (fun a b => ¬slotIndex a = slotIndex b) →
    ∀ nd ∈ nodes, ∀ (i : Nat) (b : List Node),
      slotIndex nd = some i → nd.body = some b → res[i]? = some (some b) := by
  induction nodes with
  | nil => intro acc res _ _ nd hmem; cases hmem
  | cons head rest ih =>
    intro acc res h hdist nd hmem i b hi hb
    unfold extractLoop at h
    cases hn : head.name with
    | none => simp [hn] at h
    | some nm =>
      simp only [hn] at h
      cases hp : parseReadmeName nm with
      | none => simp [hp] at h
      | some j =>
        simp only [hp] at h
        cases hb0 : head.body with
        | none => simp [hb0] at h
        | some b0 =>
          simp only [hb0] at h
          rw [List.pairwise_cons] at hdist
          rcases List.mem_cons.mp hmem with rfl | hmem'
          · have hslot : slotIndex nd = some j := by simp [slotIndex, hn, hp]
            have hj : j = i := by rw [hslot] at hi; injection hi
            subst hj
            have hbb : b0 = b := by rw [hb0] at hb; injection hb
            subst hbb
            exact extractLoop_keeps rest (setAt acc j b0) res h j b0
              (getElem_setAt_self acc j b0)
              (fun nd' hm hctr => hdist.1 nd' hm (by rw [hslot, hctr]))
          · exact ih (setAt acc j b0) res h hdist.2 nd hmem' i b hi hb

/-- Extraction fails with an assertion error whenever any container is
defective. -/
theorem extractLoop_fails (nodes : List RenderedFileNode) :
    ∀ acc : List (Option (List Node)), (∃ nd ∈ nodes, badFileNode nd) →
    ∃ m, extractLoop nodes acc = Except.error m := by
  induction nodes with
  | nil =>
    intro acc h
    obtain ⟨nd, hm, -⟩ := h
    cases hm
  | cons head rest ih =>
    intro acc h
    obtain ⟨nd, hm, hbad⟩ := h
    unfold extractLoop
    cases hn : head.name with
    | none =>
      simp only [hn]
      exact ⟨_, rfl⟩
    | some nm =>
      simp only [hn]
      cases hp : parseReadmeName nm with
      | none =>
        simp only [hp]
        exact ⟨_, rfl⟩
      | some j =>
        simp only [hp]
        cases hb : head.body with
        | none =>
          simp only [hb]
          exact ⟨_, rfl⟩
        | some b =>
          simp only [hb]
          rcases List.mem_cons.mp hm with rfl | hm'
          · exfalso
            rcases hbad with h1 | ⟨nm', h2, h3⟩ | h4
            · rw [hn] at h1; cases h1
            · rw [hn] at h2
              injection h2 with he
              subst he
              rw [hp] at h3
              cases h3
            · rw [hb] at h4; cases h4
          · exact ih (setAt acc j b) ⟨nd, hm', hbad⟩

/-- C4.  A successful extraction places every container body at the integer
index parsed from its strict slot-name pattern (recovering batch order
whatever the document order, when slots are claimed uniquely), and any
container with a missing name, a name that does not match the pattern, or
a missing body makes the extraction fail with an assertion error. -/
theorem claim_c4_theorem (nodes : List RenderedFileNode) :
    (∀ res, extractLoop nodes [] = Except.ok res →
      nodes.Pairwise (fun a b => ¬slotIndex a = slotIndex b) →
      ∀ nd ∈ nodes, ∀ (i : Nat) (b : List Node),
        slotIndex nd = some i → nd.body = some b → res[i]? = some (some b)) ∧
    ((∃ nd ∈ nodes, badFileNode nd) → ∃ m, extractLoop nodes [] = Except.error m) :=
  ⟨fun res h hdist nd hmem i b hi hb =>
      extractLoop_ok_mem nodes [] res h hdist nd hmem i b hi hb,
    fun h => extractLoop_fails nodes [] h⟩

/-- C4 witness: two containers presented in the opposite of batch order are
placed back at their parsed indices. -/
theorem claim_c4_witness :
    extractLoop nodesOutOfOrder [] =
      Except.ok [some [Node.text "A"], some [Node.text "B"]] ∧
    ([some [Node.text "A"], some [Node.text "B"]] :
      List (Option (List Node)))[1]? = some (some [Node.text "B"]) :=
  ⟨rfl,
    (claim_c4_theorem nodesOutOfOrder).1 [some [Node.text "A"], some [Node.text "B"]] rfl
      (by simp [List.pairwise_cons, nodesOutOfOrder, slotIndex]; decide)
      { name := some "readme-1.md", body := some [Node.text "B"] }
      (List.mem_cons_self _ _) 1 [Node.text "B"] rfl rfl⟩

/-- Strings without the hex suffix are fixed by the strip. -/
theorem stripFootnoteHash_noSuffix {v : String} (h : hasFootnoteHashSuffix v = false) :
    stripFootnoteHash v = v := by
  simp [stripFootnoteHash, h]

/-- On stable property sets the field strip is idempotent. -/
theorem footnoteStrip_idem (p : Properties) (h : footnoteFieldsStable p = true) :
    footnoteStrip (footnoteStrip p) = footnoteStrip p := by
  obtain ⟨cn, dr, hf, idv, rl, sr, st, tg, dcs, dfr, dht, dhu, dsp, oth⟩ := p
  unfold footnoteFieldsStable at h
  rw [Bool.and_eq_true] at h
  obtain ⟨h1, h2⟩ := h
  cases hf with
  | none =>
    cases idv with
    | none => rfl
    | some vi =>
      simp only [Bool.not_eq_true'] at h2
      simp [footnoteStrip, stripFootnoteHash_noSuffix h2]
  | some vh =>
    simp only [Bool.not_eq_true'] at h1
    cases idv with
    | none =>
      simp [footnoteStrip, stripFootnoteHash_noSuffix h1]
    | some vi =>
      simp only [Bool.not_eq_true'] at h2
      simp [footnoteStrip, stripFootnoteHash_noSuffix h1, stripFootnoteHash_noSuffix h2]

/-- On stable property sets the footnote visitor is idempotent, whatever
the selector decides on the stripped element. -/
theorem footnoteFix_idem (t : String) (p : Properties)
    (h : matchesFootnoteSel t p = true → footnoteFieldsStable p = true) :
    footnoteFix t (footnoteFix t p) = footnoteFix t p := by
  by_cases hm : matchesFootnoteSel t p
  · have hfix : footnoteFix t p = footnoteStrip p := by simp [footnoteFix, hm]
    rw [hfix]
    by_cases hm2 : matchesFootnoteSel t (footnoteStrip p)
    · simp [footnoteFix, hm2, footnoteStrip_idem p (h hm)]
    · simp [footnoteFix, hm2]
  · simp [footnoteFix, hm]

mutual

/-- Node-level idempotence of the footnote transform on stable trees. -/
theorem footnote_idem_node : ∀ n : Node, footnoteStable n = true →
    mapElem footnoteFix (mapElem footnoteFix n) = mapElem footnoteFix n
  | .element t p c, h => by
      unfold footnoteStable at h
      rw [Bool.and_eq_true] at h
      obtain ⟨hp, hc⟩ := h
      simp only [mapElem]
      rw [footnote_idem_list c hc, footnoteFix_idem t p (fun hm => by simpa [hm] using hp)]
  | .text v, _ => rfl
  | .comment v, _ => rfl

/-- List-level idempotence of the footnote transform on stable trees. -/
theorem footnote_idem_list : ∀ l : List Node, footnoteStableList l = true →
    mapElemList footnoteFix (mapElemList footnoteFix l) = mapElemList footnoteFix l
  | [], _ => rfl
  | x :: xs, h => by
      unfold footnoteStableList at h
      rw [Bool.and_eq_true] at h
      simp only [mapElemList]
      rw [footnote_idem_node x h.1, footnote_idem_list xs h.2]

end

/-- C1 (amended).  The footnote-id-hash transform applied twice equals one
application on every fragment in which no footnote-matched element's
`href` or `id`, after one strip, still ends in a `-` + 32-hex-digit
suffix.  (The unamended claim is refuted by `claim_c1_counterexample`.) -/
theorem claim_c1_theorem (r : Root) (h : footnoteStableRoot r = true) :
    cleanMarkupFootnoteIdHash (cleanMarkupFootnoteIdHash r) = cleanMarkupFootnoteIdHash r :=
  congrArg Root.mk (footnote_idem_list r.children h)

/-- C1 witness: a footnote anchor with the single suffix the remote
renderer actually emits is stable, and a second application changes
nothing. -/
theorem claim_c1_witness :
    footnoteStableRoot singleHashTree = true ∧
    cleanMarkupFootnoteIdHash (cleanMarkupFootnoteIdHash singleHashTree) =
      cleanMarkupFootnoteIdHash singleHashTree :=
  ⟨by decide, claim_c1_theorem singleHashTree (by decide)⟩

/-- C1 counterexample: on a footnote `href` carrying two stacked hex
suffixes, the full default pipeline strips one suffix per application, so
applying the rule set twice differs from applying it once. -/
theorem claim_c1_counterexample :
    ¬applyTransforms defaultKeep (applyTransforms defaultKeep doubleHashTree) =
      applyTransforms defaultKeep doubleHashTree := by
  have h1 : applyTransforms defaultKeep doubleHashTree = singleHashTree := by
    simp [applyTransforms, transforms, defaultKeep, applyRule, cleanMarkupCamoImage, camoL,
      cleanMarkupDir, mapElem, mapElemList, dirFix, cleanMarkupFrontmatter, isFrontmatterHead,
      cleanMarkupAnchor, anchorL, cleanMarkupImageStyle, imageStyleFix, cleanMarkupImageLink,
      imageLinkL, cleanMarkupIssue, issueL, cleanMarkupLinkRel, linkRelFix,
      cleanMarkupUserMention, userMentionFix, cleanMarkupFootnoteIdHash, footnoteFix,
      footnoteStrip, matchesFootnoteSel, clsHas, cleanMarkupTable, tableL, cleanMarkupTasklist,
      tasklistFix, jsTruthy, doubleHashTree, singleHashTree,
      show stripFootnoteHash
          "#user-content-fn-1-0123456789abcdef0123456789abcdef-0123456789abcdef0123456789abcdef" =
          "#user-content-fn-1-0123456789abcdef0123456789abcdef" from by decide]
  have h2 : applyTransforms defaultKeep singleHashTree =
      ⟨[Node.element "a"
          { href := some "#user-content-fn-1", dataFootnoteRef := some "" }
          [Node.text "1"]]⟩ := by
    simp [applyTransforms, transforms, defaultKeep, applyRule, cleanMarkupCamoImage, camoL,
      cleanMarkupDir, mapElem, mapElemList, dirFix, cleanMarkupFrontmatter, isFrontmatterHead,
      cleanMarkupAnchor, anchorL, cleanMarkupImageStyle, imageStyleFix, cleanMarkupImageLink,
      imageLinkL, cleanMarkupIssue, issueL, cleanMarkupLinkRel, linkRelFix,
      cleanMarkupUserMention, userMentionFix, cleanMarkupFootnoteIdHash, footnoteFix,
      footnoteStrip, matchesFootnoteSel, clsHas, cleanMarkupTable, tableL, cleanMarkupTasklist,
      tasklistFix, jsTruthy, singleHashTree,
      show stripFootnoteHash "#user-content-fn-1-0123456789abcdef0123456789abcdef" =
          "#user-content-fn-1" from by decide]
  intro hcontra
  rw [h1, h2] at hcontra
  have hobs := congrArg rootFirstHref hcontra
  simp [rootFirstHref, singleHashTree] at hobs

/-- C7 witness: a batch with only a comment-mode source submits exactly the
placeholder entry. -/
theorem claim_c7_witness :
    1 ≤ ([("readme-0.md", ".")] : List (String × String)).length ∧
    ((eligible envWithToken [srcComment]).filter (fun s => sourceMode s = Mode.file) = [] →
      ([("readme-0.md", ".")] : List (String × String)) = [("readme-0.md", ".")]) :=
  claim_c7_theorem [srcComment] envWithToken remoteOk [("readme-0.md", ".")] (by decide)
